import Mathlib

/-!
Shallow embedding of the job-control core of `sh.c` (an interactive shell
with job control).  Pids and job ids are modelled as `Int`, matching the
C `pid_t`/`int` values with `-1` as the "none" sentinel.  Syscall outcomes
(`tcsetpgrp`, `kill`, `waitpid`) are injected through explicit environment
records, and every `fprintf`/`perror` is modelled as an output message on
an explicit channel.
-/

set_option maxHeartbeats 1600000

namespace Shell

/-- `process_state_t` from jobs.h. -/
inductive ProcState
  | RUNNING
  | STOPPED
deriving DecidableEq, Repr

/-- One entry of the job list: job id, pid, state and display name. -/
structure Job where
  jid : Int
  pid : Int
  state : ProcState
  cmd : String
deriving DecidableEq, Repr

/-- Modelled from the spec: JobTable `find_by_job_id` as used by
`get_job_pid(job_list, jid)` (jobs.c is not part of the sources); returns
the pid of the job with the given job id, or `-1` when absent. -/
def get_job_pid (l : List Job) (jid : Int) : Int :=
  match l.find? (fun j => j.jid == jid) with
  | some j => j.pid
  | none => -1

/-- Modelled from the spec: JobTable lookup of a job id by pid, as used by
`get_job_jid(job_list, pid)` (jobs.c is not part of the sources); returns
the stored job id, or `-1` when the pid is untracked. -/
def get_job_jid (l : List Job) (pid : Int) : Int :=
  match l.find? (fun j => j.pid == pid) with
  | some j => j.jid
  | none => -1

/-- Modelled from the spec: JobTable `set_state(pid, state)`, i.e.
`update_job_pid(job_list, pid, state)` (jobs.c is not part of the
sources); fails (`none`, the C `-1`) exactly when the pid is not tracked,
otherwise stores the new state. -/
def update_job_pid (l : List Job) (pid : Int) (st : ProcState) : Option (List Job) :=
  if l.any (fun j => j.pid == pid) then
    some (l.map (fun j => if j.pid == pid then { j with state := st } else j))
  else
    none

/-- Modelled from the spec: JobTable `add(job_id, pid, state, name)`, i.e.
`add_job` (jobs.c is not part of the sources); fails when the pid or the
job id is already present or the table is at its fixed capacity `cap`,
otherwise appends the new entry. -/
def add_job (l : List Job) (cap : Nat) (jid pid : Int) (st : ProcState) (cmd : String) :
    Option (List Job) :=
  if l.any (fun j => j.pid == pid) || l.any (fun j => j.jid == jid) || decide (cap ≤ l.length)
  then none
  else some (l ++ [⟨jid, pid, st, cmd⟩])

/-- Modelled from the spec: JobTable removal by pid (`remove_job_pid`,
jobs.c is not part of the sources); idempotent no-op when absent. -/
def remove_job_pid (l : List Job) (pid : Int) : List Job :=
  l.filter (fun j => j.pid != pid)

/-- Modelled from the spec: JobTable removal by job id (`remove_job_jid`,
jobs.c is not part of the sources); idempotent no-op when absent. -/
def remove_job_jid (l : List Job) (jid : Int) : List Job :=
  l.filter (fun j => j.jid != jid)

/-- `get_job_info` from sh.c lines 50-73: looks up the pid of job `jid`,
then infers the state by setting the job RUNNING, testing whether it can
be set STOPPED, and restoring `current_state` (a local always equal to
RUNNING).  Returns the reported `(pid, state)` (or `none` for the C `-1`)
together with the job list after these mutations. -/
def get_job_info (l : List Job) (jid : Int) : Option (Int × ProcState) × List Job :=
  let pid := get_job_pid l jid
  if pid == -1 then
    (none, l)
  else
    let current_state := ProcState.RUNNING
    match update_job_pid l pid current_state with
    | none => (none, l)
    | some l1 =>
      match update_job_pid l1 pid ProcState.STOPPED with
      | some l2 => (some (pid, ProcState.STOPPED), (update_job_pid l2 pid current_state).getD l2)
      | none => (some (pid, ProcState.RUNNING), l1)

/-- Output channel of an `fprintf`/`perror`. -/
inductive Channel
  | out
  | err
deriving DecidableEq, Repr

/-- One line printed by the shell. -/
structure Msg where
  ch : Channel
  text : String
deriving DecidableEq, Repr

/-- A `perror(name)` line on standard error. -/
def perrorMsg (name : String) : Msg :=
  ⟨Channel.err, name ++ ": error\n"⟩

/-- A decoded `waitpid` status word (`WIFEXITED` / `WIFSIGNALED` /
`WIFSTOPPED` / `WIFCONTINUED`). -/
inductive WStatus
  | exited (code : Int)
  | signaled (sig : Int)
  | stopped (sig : Int)
  | continued
deriving DecidableEq, Repr

/-- The shell's global job-control state (sh.c lines 16-20), together with
the terminal owner (the process group last handed the terminal by
`tcsetpgrp`) and the shell's own process group id.  `cap` is the fixed
job-table capacity (modelled from the spec: capacity is bounded). -/
structure ShellState where
  jobs : List Job
  cap : Nat
  fg_pid : Int
  next_jid : Int
  foreground_job_id : Int
  shellPgid : Int
  termOwner : Int
deriving DecidableEq, Repr

/-- Injected outcomes of the syscalls made on the `fg`/`bg` builtin path:
whether `tcsetpgrp` to the job's group succeeds, whether `kill(-pid,
SIGCONT)` succeeds, the result of the blocking `waitpid` (`none` =
failure), and whether the final `tcsetpgrp` back to the shell's group
succeeds. -/
structure FgEnv where
  grantOk : Bool
  contOk : Bool
  waitRes : Option WStatus
  reclaimOk : Bool
deriving DecidableEq, Repr

/-- `give_terminal_to(pgid)` from sh.c lines 100-110: rejects `pgid <= 0`,
otherwise hands the terminal to `pgid` when the `tcsetpgrp` syscall
succeeds; on syscall failure it perrors and changes nothing. -/
def give_terminal_to (s : ShellState) (pgid : Int) (ok : Bool) : ShellState × Int × List Msg :=
  if pgid ≤ 0 then (s, -1, [])
  else if ok then ({ s with termOwner := pgid }, 0, [])
  else (s, -1, [perrorMsg "tcsetpgrp"])

/-- `take_terminal_control()` from sh.c lines 117-129: hands the terminal
back to the shell's own process group; on syscall failure it perrors and
changes nothing. -/
def take_terminal_control (s : ShellState) (ok : Bool) : ShellState × Int × List Msg :=
  if ok then ({ s with termOwner := s.shellPgid }, 0, [])
  else (s, -1, [perrorMsg "tcsetpgrp"])

/-- `send_signal_to_job(pid, signal)` from sh.c lines 82-92: rejects
`pid <= 0`, otherwise sends the signal to the process group `-pid`;
returns the C return code and the perror output on failure. -/
def send_signal_to_job (pid : Int) (ok : Bool) : Int × List Msg :=
  if pid ≤ 0 then (-1, [])
  else if ok then (0, [])
  else (-1, [perrorMsg "kill"])

/-- `wait_for_job(pid, &status)` from sh.c lines 138-149: rejects
`pid <= 0`, perrors and returns `-1` when the blocking `waitpid` fails,
otherwise returns `1` when the child stopped and `0` otherwise; the
middle component is the status stored through the out-parameter. -/
def wait_for_job (pid : Int) (res : Option WStatus) : Int × Option WStatus × List Msg :=
  if pid ≤ 0 then (-1, none, [])
  else
    match res with
    | none => (-1, none, [perrorMsg "waitpid"])
    | some st =>
      match st with
      | WStatus.stopped _ => (1, some st, [])
      | _ => (0, some st, [])

/-- Result of one `fg`/`bg` builtin invocation: the new shell state, the
printed messages, the pids whose process group was sent `SIGCONT`
(via `kill(-pid, SIGCONT)`), whether a blocking wait call was made, and
the C return value of `handle_builtin`. -/
structure BuiltinRes where
  st : ShellState
  msgs : List Msg
  sigs : List Int
  waited : Bool
  ret : Int
deriving DecidableEq, Repr

/-- Classification of the wait status in the fg builtin (sh.c lines
480-491): a stop re-marks the job STOPPED and announces the suspension
with its job id, a signal death prints the pid-only notice and removes
the job by job id, anything else silently removes the job by job id. -/
def fgClassify (s2 : ShellState) (jobId pid : Int) (stOpt : Option WStatus) :
    ShellState × List Msg :=
  match stOpt with
  | some (WStatus.stopped sig) =>
    ({ s2 with jobs := (update_job_pid s2.jobs pid ProcState.STOPPED).getD s2.jobs },
     [⟨Channel.out, s!"[{jobId}] ({pid}) suspended by signal {sig}\n"⟩])
  | some (WStatus.signaled sig) =>
    ({ s2 with jobs := remove_job_jid s2.jobs jobId },
     [⟨Channel.out, s!"({pid}) terminated by signal {sig}\n"⟩])
  | _ =>
    ({ s2 with jobs := remove_job_jid s2.jobs jobId }, [])

/-- The `fg` branch of `handle_builtin` (sh.c lines 449-495): validate the
job via `get_job_info`, hand the terminal to the job's group and send
`SIGCONT` (reclaiming the terminal on failure of either), record the
foreground pid/job id, set the job RUNNING, block in `wait_for_job`
(reclaiming the terminal on wait failure), classify the resulting status,
clear the foreground bookkeeping and reclaim the terminal. -/
def fgBuiltin (s : ShellState) (jobId : Int) (env : FgEnv) : BuiltinRes :=
  match get_job_info s.jobs jobId with
  | (none, l0) =>
    { st := { s with jobs := l0 }, msgs := [⟨Channel.err, "ERROR: No such job\n"⟩],
      sigs := [], waited := false, ret := -1 }
  | (some (pid, _state), l0) =>
    let s0 := { s with jobs := l0 }
    let (s1, g, m1) := give_terminal_to s0 pid env.grantOk
    if g < 0 then
      let (s2, _, m2) := take_terminal_control s1 env.reclaimOk
      { st := s2, msgs := m1 ++ m2, sigs := [], waited := false, ret := -1 }
    else
      let (k, m2) := send_signal_to_job pid env.contOk
      if k < 0 then
        let (s2, _, m3) := take_terminal_control s1 env.reclaimOk
        { st := s2, msgs := m1 ++ m2 ++ m3, sigs := [], waited := false, ret := -1 }
      else
        let s2 := { s1 with
                    fg_pid := pid,
                    foreground_job_id := jobId,
                    jobs := (update_job_pid s1.jobs pid ProcState.RUNNING).getD s1.jobs }
        let (wr, stOpt, m3) := wait_for_job pid env.waitRes
        if wr < 0 then
          let (s3, _, m4) := take_terminal_control s2 env.reclaimOk
          { st := s3, msgs := m1 ++ m2 ++ m3 ++ m4, sigs := [pid], waited := true, ret := -1 }
        else
          let (s3, m4) := fgClassify s2 jobId pid stOpt
          let s4 := { s3 with fg_pid := -1, foreground_job_id := -1 }
          let (s5, t, m5) := take_terminal_control s4 env.reclaimOk
          { st := s5, msgs := m1 ++ m2 ++ m3 ++ m4 ++ m5, sigs := [pid], waited := true,
            ret := if t == 0 then 1 else -1 }

/-- The `bg` branch of `handle_builtin` (sh.c lines 449-457 and 496-508):
validate the job via `get_job_info`, reject a job whose reported state is
not STOPPED, send `SIGCONT` to its group and mark it RUNNING; never
waits. -/
def bgBuiltin (s : ShellState) (jobId : Int) (env : FgEnv) : BuiltinRes :=
  match get_job_info s.jobs jobId with
  | (none, l0) =>
    { st := { s with jobs := l0 }, msgs := [⟨Channel.err, "ERROR: No such job\n"⟩],
      sigs := [], waited := false, ret := -1 }
  | (some (pid, state), l0) =>
    let s0 := { s with jobs := l0 }
    if state ≠ ProcState.STOPPED then
      { st := s0, msgs := [⟨Channel.err, "ERROR: Job is already running\n"⟩],
        sigs := [], waited := false, ret := -1 }
    else
      let (k, m1) := send_signal_to_job pid env.contOk
      if k < 0 then
        { st := s0, msgs := m1, sigs := [], waited := false, ret := -1 }
      else
        { st := { s0 with jobs := (update_job_pid s0.jobs pid ProcState.RUNNING).getD s0.jobs },
          msgs := m1, sigs := [pid], waited := false, ret := 1 }

/-- Injected syscall outcomes on the parent-side foreground path of
`main`: the `tcsetpgrp(STDIN_FILENO, pid)` grant, the blocking `waitpid`
(`none` = failure) and the final `tcsetpgrp` back to the shell's
group. -/
structure MainFgEnv where
  grantOk : Bool
  waitRes : Option WStatus
  reclaimOk : Bool
deriving DecidableEq, Repr

/-- Parent side of a foreground launch (sh.c lines 699-731): record the
foreground pid, hand the terminal to the child (failure only perrors),
block in `waitpid`; on a stop admit the process as a STOPPED job under
`next_jid`, on signal death print the pid-only notice; then clear
`fg_pid` and hand the terminal back to the shell's group. -/
def mainForeground (s : ShellState) (pid : Int) (cmdPath : String) (env : MainFgEnv) :
    ShellState × List Msg :=
  let s0 := { s with fg_pid := pid }
  let (s1, m1) :=
    if env.grantOk then ({ s0 with termOwner := pid }, ([] : List Msg))
    else (s0, [perrorMsg "tcsetpgrp"])
  let (s2, m2) :=
    match env.waitRes with
    | none => (s1, [perrorMsg "waitpid"])
    | some (WStatus.stopped sig) =>
      match add_job s1.jobs s1.cap s1.next_jid pid ProcState.STOPPED cmdPath with
      | some l =>
        ({ s1 with jobs := l, next_jid := s1.next_jid + 1 },
         [⟨Channel.out, s!"[{s1.next_jid}] ({pid}) suspended by signal {sig}\n"⟩])
      | none => (s1, [⟨Channel.err, "Error: Failed to add job to job list\n"⟩])
    | some (WStatus.signaled sig) =>
      (s1, [⟨Channel.out, s!"({pid}) terminated by signal {sig}\n"⟩])
    | some _ => (s1, [])
  let s3 := { s2 with fg_pid := -1 }
  let (s4, m3) :=
    if env.reclaimOk then ({ s3 with termOwner := s3.shellPgid }, ([] : List Msg))
    else (s3, [perrorMsg "tcsetpgrp"])
  (s4, m1 ++ m2 ++ m3)

/-- Parent side of a background launch (sh.c lines 732-741): admit the
child as a RUNNING job under `next_jid` and announce it, or report the
failed add on standard error. -/
def mainBackground (s : ShellState) (pid : Int) (cmdPath : String) : ShellState × List Msg :=
  match add_job s.jobs s.cap s.next_jid pid ProcState.RUNNING cmdPath with
  | some l =>
    ({ s with jobs := l, next_jid := s.next_jid + 1 },
     [⟨Channel.out, s!"[{s.next_jid}] ({pid})\n"⟩])
  | none => (s, [⟨Channel.err, "Error: Failed to add job to job list\n"⟩])

/-- One iteration of the reaper's drain loop (`reap_background_processes`,
sh.c lines 163-221) applied to one `waitpid(-1, ..., WNOHANG | WUNTRACED
| WCONTINUED)` event: drop events of untracked pids other than the
foreground pid, remove and report tracked exited/signaled jobs, admit or
re-stop stopped processes, and resume tracked continued jobs. -/
def reapOne (s : ShellState) (pid : Int) (status : WStatus) : ShellState × List Msg :=
  let jid := get_job_jid s.jobs pid
  if jid == -1 && pid != s.fg_pid then (s, [])
  else
    match status with
    | WStatus.exited code =>
      if 0 < jid then
        ({ s with jobs := remove_job_pid s.jobs pid },
         [⟨Channel.out, s!"[{jid}] ({pid}) terminated with exit status {code}\n"⟩])
      else (s, [])
    | WStatus.signaled sig =>
      if 0 < jid then
        ({ s with jobs := remove_job_pid s.jobs pid },
         [⟨Channel.out, s!"[{jid}] ({pid}) terminated by signal {sig}\n"⟩])
      else (s, [⟨Channel.out, s!"({pid}) terminated by signal {sig}\n"⟩])
    | WStatus.stopped sig =>
      if jid == -1 then
        let command_buf := if s.fg_pid == pid then "fg_command" else "bg_command"
        match add_job s.jobs s.cap s.next_jid pid ProcState.STOPPED command_buf with
        | some l =>
          ({ s with jobs := l, next_jid := s.next_jid + 1 },
           [⟨Channel.out, s!"[{s.next_jid}] ({pid}) suspended by signal {sig}\n"⟩])
        | none => (s, [⟨Channel.err, "Error: Failed to add job to job list\n"⟩])
      else
        ({ s with jobs := (update_job_pid s.jobs pid ProcState.STOPPED).getD s.jobs },
         [⟨Channel.out, s!"[{jid}] ({pid}) suspended by signal {sig}\n"⟩])
    | WStatus.continued =>
      if 0 < jid then
        ({ s with jobs := (update_job_pid s.jobs pid ProcState.RUNNING).getD s.jobs },
         [⟨Channel.out, s!"[{jid}] ({pid}) resumed\n"⟩])
      else (s, [])

/-- One state-mutating operation of a shell session: a reaped `waitpid`
event, a foreground or background launch from `main`, or an `fg`/`bg`
builtin. -/
inductive ShellOp
  | reap (pid : Int) (status : WStatus)
  | fgLaunch (pid : Int) (cmd : String) (env : MainFgEnv)
  | bgLaunch (pid : Int) (cmd : String)
  | fgCmd (jobId : Int) (env : FgEnv)
  | bgCmd (jobId : Int) (env : FgEnv)

/-- Dispatch of one session operation to the corresponding sh.c code
path. -/
def shellStep (s : ShellState) (op : ShellOp) : ShellState × List Msg :=
  match op with
  | ShellOp.reap pid status => reapOne s pid status
  | ShellOp.fgLaunch pid cmd env => mainForeground s pid cmd env
  | ShellOp.bgLaunch pid cmd => mainBackground s pid cmd
  | ShellOp.fgCmd jobId env =>
    let r := fgBuiltin s jobId env
    (r.st, r.msgs)
  | ShellOp.bgCmd jobId env =>
    let r := bgBuiltin s jobId env
    (r.st, r.msgs)

/-- The job ids stored in a job list. -/
def jids (l : List Job) : List Int :=
  l.map Job.jid

/-- The job ids present in `new` that were not present in `old`: the ids
issued by a step that turns table `old` into table `new`. -/
def newIds (old new : List Job) : List Int :=
  (jids new).filter (fun i => decide (i ∉ jids old))

/-- Run a sequence of session operations, collecting the job ids issued
by each step in order. -/
def runTrace : ShellState → List ShellOp → ShellState × List Int
  | s, [] => (s, [])
  | s, op :: rest =>
    let s1 := (shellStep s op).1
    let r := runTrace s1 rest
    (r.1, newIds s.jobs s1.jobs ++ r.2)

/-- The list `[n, n+1, ..., n+k-1]` of `k` consecutive integers. -/
def consecFrom : Int → Nat → List Int
  | _, 0 => []
  | n, k + 1 => n :: consecFrom (n + 1) k

/-- The shell state at startup (sh.c lines 16-20 and 598): empty job
list, no foreground pid or job id, `next_jid = 1`, terminal owned by the
shell's own process group `pg`; `cap` is the fixed table capacity. -/
def initShellState (cap : Nat) (pg : Int) : ShellState :=
  { jobs := [], cap := cap, fg_pid := -1, next_jid := 1,
    foreground_job_id := -1, shellPgid := pg, termOwner := pg }

/-- Two background launches with the first job exiting in between. -/
def demoOps : List ShellOp :=
  [ShellOp.bgLaunch 100 "a", ShellOp.reap 100 (WStatus.exited 0), ShellOp.bgLaunch 200 "b"]

/-- Every job id stored in the table is below the `next_jid` counter. -/
def JidInv (s : ShellState) : Prop :=
  ∀ j ∈ s.jobs, j.jid < s.next_jid

/-- One step either issues no job id and leaves the counter alone, or
issues exactly the current counter value and increments it. -/
def IssueOk (s s' : ShellState) : Prop :=
  (newIds s.jobs s'.jobs = [] ∧ s'.next_jid = s.next_jid) ∨
  (newIds s.jobs s'.jobs = [s.next_jid] ∧ s'.next_jid = s.next_jid + 1)

/-- A shell state tracking one RUNNING job with id 1 and pid 5. -/
def runningSample : ShellState :=
  { jobs := [⟨1, 5, ProcState.RUNNING, "x"⟩], cap := 16, fg_pid := -1, next_jid := 2,
    foreground_job_id := -1, shellPgid := 10, termOwner := 10 }

/-- A shell state tracking one STOPPED job with id 1 and pid 5. -/
def stoppedSample : ShellState :=
  { jobs := [⟨1, 5, ProcState.STOPPED, "x"⟩], cap := 16, fg_pid := -1, next_jid := 2,
    foreground_job_id := -1, shellPgid := 10, termOwner := 10 }

/-- A shell state with an untracked foreground process (pid 7) and an
empty job table. -/
def fgStopSample : ShellState :=
  { jobs := [], cap := 16, fg_pid := 7, next_jid := 1,
    foreground_job_id := -1, shellPgid := 10, termOwner := 7 }

/-- A shell state whose job table has capacity 0, so every add fails. -/
def capZeroSample : ShellState :=
  { jobs := [], cap := 0, fg_pid := 7, next_jid := 1,
    foreground_job_id := -1, shellPgid := 10, termOwner := 7 }

lemma mem_remove_job_jid {l : List Job} {jid : Int} {jb : Job}
    (h : jb ∈ remove_job_jid l jid) : jb.jid ≠ jid := by
  unfold remove_job_jid at h
  have := List.of_mem_filter h
  simpa using this

lemma mem_remove_job_pid {l : List Job} {pid : Int} {jb : Job}
    (h : jb ∈ remove_job_pid l pid) : jb ∈ l :=
  List.mem_of_mem_filter h

lemma update_job_pid_tracked {l : List Job} {pid : Int} (st : ProcState)
    (h : l.any (fun j => j.pid == pid) = true) :
    update_job_pid l pid st =
      some (l.map (fun j => if j.pid == pid then { j with state := st } else j)) := by
  unfold update_job_pid
  simp [h]

lemma state_after_update {l : List Job} {pid : Int} {st : ProcState} {jb : Job}
    (hjb : jb ∈ (update_job_pid l pid st).getD l) (hpid : jb.pid = pid) :
    jb.state = st := by
  unfold update_job_pid at hjb
  by_cases h : l.any (fun j => j.pid == pid) = true
  · simp only [h, if_pos, Option.getD_some] at hjb
    obtain ⟨a, _, rfl⟩ := List.mem_map.mp hjb
    by_cases ha : a.pid = pid
    · simp [ha]
    · rw [if_neg (by simpa using ha)] at hpid
      exact absurd hpid ha
  · rw [if_neg h, Option.getD_none] at hjb
    exact absurd (List.any_eq_true.mpr ⟨jb, hjb, by simp [hpid]⟩) h

lemma any_pid_of_get_job_pid {l : List Job} {jid pid : Int}
    (h : get_job_pid l jid = pid) (hne : ¬ pid = -1) :
    l.any (fun j => j.pid == pid) = true := by
  unfold get_job_pid at h
  cases hf : l.find? (fun j => j.jid == jid) with
  | none => rw [hf] at h; exact absurd h.symm hne
  | some j =>
    rw [hf] at h
    have h' : j.pid = pid := h
    exact List.any_eq_true.mpr ⟨j, List.mem_of_find?_eq_some hf, by simp [h']⟩

lemma jids_map_setState (l : List Job) (pid : Int) (st : ProcState) :
    jids (l.map (fun j => if j.pid == pid then { j with state := st } else j)) = jids l := by
  induction l with
  | nil => rfl
  | cons a t ih =>
    unfold jids at ih ⊢
    simp only [List.map_cons, List.cons.injEq]
    refine ⟨?_, ih⟩
    by_cases h : a.pid = pid <;> simp [h]

lemma jids_update_getD (l : List Job) (pid : Int) (st : ProcState) :
    jids ((update_job_pid l pid st).getD l) = jids l := by
  unfold update_job_pid
  by_cases h : l.any (fun j => j.pid == pid) = true
  · rw [if_pos h, Option.getD_some]
    exact jids_map_setState l pid st
  · rw [if_neg h, Option.getD_none]

lemma jids_update_some {l : List Job} {pid : Int} {st : ProcState} {l' : List Job}
    (h : update_job_pid l pid st = some l') : jids l' = jids l := by
  unfold update_job_pid at h
  split at h
  · injection h with h
    rw [← h]
    exact jids_map_setState l pid st
  · exact Option.noConfusion h

lemma jids_get_job_info (l : List Job) (jid : Int) :
    jids (get_job_info l jid).2 = jids l := by
  unfold get_job_info
  dsimp only
  split
  · rfl
  · split
    · rfl
    next l1 h1 =>
      split
      next l2 h2 =>
        dsimp only
        rw [jids_update_getD, jids_update_some h2, jids_update_some h1]
      next h2 =>
        dsimp only
        exact jids_update_some h1

lemma newIds_nil_of_subset {old new : List Job}
    (h : ∀ i ∈ jids new, i ∈ jids old) : newIds old new = [] := by
  unfold newIds
  rw [List.filter_eq_nil_iff]
  intro a ha
  simp [h a ha]

lemma newIds_nil_of_eq {old new : List Job} (h : jids new = jids old) :
    newIds old new = [] :=
  newIds_nil_of_subset (fun i hi => h ▸ hi)

lemma newIds_append_fresh {old : List Job} {jb : Job} (h : jb.jid ∉ jids old) :
    newIds old (old ++ [jb]) = [jb.jid] := by
  unfold newIds
  have hj : jids (old ++ [jb]) = jids old ++ [jb.jid] := by simp [jids]
  rw [hj, List.filter_append]
  rw [List.filter_eq_nil_iff.mpr (fun a ha => by simp [ha])]
  simp [h]

lemma issue_left {s s' : ShellState} (hn : s'.next_jid = s.next_jid)
    (hsub : ∀ i ∈ jids s'.jobs, i ∈ jids s.jobs) (hinv : JidInv s) :
    JidInv s' ∧ IssueOk s s' := by
  refine ⟨?_, Or.inl ⟨newIds_nil_of_subset hsub, hn⟩⟩
  intro j hj
  rw [hn]
  obtain ⟨j0, hj0, he⟩ := List.mem_map.mp (hsub j.jid (List.mem_map_of_mem Job.jid hj))
  exact he ▸ hinv j0 hj0

lemma issue_add {s s' : ShellState} {pid : Int} {st : ProcState} {cmd : String}
    (h : add_job s.jobs s.cap s.next_jid pid st cmd = some s'.jobs)
    (hn : s'.next_jid = s.next_jid + 1) (hinv : JidInv s) :
    JidInv s' ∧ IssueOk s s' := by
  have hl : s'.jobs = s.jobs ++ [⟨s.next_jid, pid, st, cmd⟩] := by
    unfold add_job at h
    split at h
    · exact Option.noConfusion h
    · injection h with h
      exact h.symm
  have hfresh : s.next_jid ∉ jids s.jobs := by
    intro hmem
    obtain ⟨j0, hj0, he⟩ := List.mem_map.mp hmem
    have := hinv j0 hj0
    omega
  constructor
  · intro j hj
    rw [hl] at hj
    rw [hn]
    rcases List.mem_append.mp hj with h1 | h1
    · have := hinv j h1
      omega
    · have he : j = ⟨s.next_jid, pid, st, cmd⟩ := by simpa using h1
      rw [he]
      show s.next_jid < s.next_jid + 1
      omega
  · right
    refine ⟨?_, hn⟩
    rw [hl]
    exact newIds_append_fresh hfresh

lemma jids_filter_subset (l : List Job) (p : Job → Bool) :
    ∀ i ∈ jids (l.filter p), i ∈ jids l := by
  intro i hi
  obtain ⟨j, hj, he⟩ := List.mem_map.mp hi
  exact he ▸ List.mem_map_of_mem Job.jid (List.mem_of_mem_filter hj)

lemma mem_jids_update {X : List Job} {pid : Int} {st : ProcState} {i : Int}
    (h : i ∈ jids ((update_job_pid X pid st).getD X)) : i ∈ jids X := by
  rw [jids_update_getD] at h
  exact h

lemma mem_jids_remove_jid {X : List Job} {jid i : Int}
    (h : i ∈ jids (remove_job_jid X jid)) : i ∈ jids X :=
  jids_filter_subset X _ i h

lemma mem_jids_remove_pid {X : List Job} {pid i : Int}
    (h : i ∈ jids (remove_job_pid X pid)) : i ∈ jids X :=
  jids_filter_subset X _ i h

lemma reapOne_issue (s : ShellState) (pid : Int) (status : WStatus) (hinv : JidInv s) :
    JidInv (reapOne s pid status).1 ∧ IssueOk s (reapOne s pid status).1 := by
  unfold reapOne
  dsimp only
  cases status
  all_goals
    repeat' (first | split | dsimp only)
  all_goals
    first
      | exact issue_left rfl (fun _ hi => hi) hinv
      | exact issue_left rfl (fun _ hi => mem_jids_update hi) hinv
      | exact issue_left rfl (fun _ hi => mem_jids_remove_pid hi) hinv
      | exact issue_add (by assumption) rfl hinv

lemma mainForeground_issue (s : ShellState) (pid : Int) (cmd : String) (env : MainFgEnv)
    (hinv : JidInv s) :
    JidInv (mainForeground s pid cmd env).1 ∧ IssueOk s (mainForeground s pid cmd env).1 := by
  obtain ⟨g, w, r⟩ := env
  unfold mainForeground
  cases g <;> cases r <;> dsimp only <;>
    repeat' (first | split | dsimp only)
  all_goals
    first
      | exact issue_left rfl (fun _ hi => hi) hinv
      | exact issue_add (by assumption) rfl hinv

lemma mainBackground_issue (s : ShellState) (pid : Int) (cmd : String) (hinv : JidInv s) :
    JidInv (mainBackground s pid cmd).1 ∧ IssueOk s (mainBackground s pid cmd).1 := by
  unfold mainBackground
  cases hadd : add_job s.jobs s.cap s.next_jid pid ProcState.RUNNING cmd with
  | none =>
    dsimp only
    exact issue_left rfl (fun _ hi => hi) hinv
  | some l =>
    dsimp only
    exact issue_add hadd rfl hinv

lemma take_terminal_control_state (s : ShellState) (ok : Bool) :
    (take_terminal_control s ok).1.jobs = s.jobs ∧
    (take_terminal_control s ok).1.next_jid = s.next_jid := by
  unfold take_terminal_control
  cases ok <;> exact ⟨rfl, rfl⟩

lemma give_terminal_to_state (s : ShellState) (pgid : Int) (ok : Bool) :
    (give_terminal_to s pgid ok).1.jobs = s.jobs ∧
    (give_terminal_to s pgid ok).1.next_jid = s.next_jid := by
  unfold give_terminal_to
  by_cases hp : pgid ≤ 0
  · rw [if_pos hp]
    exact ⟨rfl, rfl⟩
  · rw [if_neg hp]
    cases ok <;> exact ⟨rfl, rfl⟩

lemma fgClassify_state (s2 : ShellState) (jobId pid : Int) (stOpt : Option WStatus) :
    (fgClassify s2 jobId pid stOpt).1.next_jid = s2.next_jid ∧
    ∀ i ∈ jids (fgClassify s2 jobId pid stOpt).1.jobs, i ∈ jids s2.jobs := by
  unfold fgClassify
  cases stOpt with
  | none => exact ⟨rfl, fun _ hi => mem_jids_remove_jid hi⟩
  | some st =>
    cases st with
    | exited code => exact ⟨rfl, fun _ hi => mem_jids_remove_jid hi⟩
    | signaled sig => exact ⟨rfl, fun _ hi => mem_jids_remove_jid hi⟩
    | stopped sig => exact ⟨rfl, fun _ hi => mem_jids_update hi⟩
    | continued => exact ⟨rfl, fun _ hi => mem_jids_remove_jid hi⟩

lemma fgBuiltin_issue (s : ShellState) (jobId : Int) (env : FgEnv) (hinv : JidInv s) :
    JidInv (fgBuiltin s jobId env).st ∧ IssueOk s (fgBuiltin s jobId env).st := by
  unfold fgBuiltin
  cases hg : get_job_info s.jobs jobId with
  | mk res l0 =>
    have hgi : jids l0 = jids s.jobs := by
      have h0 := jids_get_job_info s.jobs jobId
      rw [hg] at h0
      exact h0
    cases res with
    | none =>
      dsimp only
      exact issue_left rfl (fun i hi => hgi ▸ hi) hinv
    | some pr =>
      obtain ⟨pid, st0⟩ := pr
      dsimp only
      cases h1 : give_terminal_to { s with jobs := l0 } pid env.grantOk with
      | mk s1 gm =>
        obtain ⟨g, m1⟩ := gm
        have hs1 : s1.jobs = l0 ∧ s1.next_jid = s.next_jid := by
          have h := give_terminal_to_state { s with jobs := l0 } pid env.grantOk
          rw [h1] at h
          exact h
        dsimp only
        split
        · cases h2 : take_terminal_control s1 env.reclaimOk with
          | mk s2 tm =>
            obtain ⟨t, m2⟩ := tm
            have hs2 : s2.jobs = s1.jobs ∧ s2.next_jid = s1.next_jid := by
              have h := take_terminal_control_state s1 env.reclaimOk
              rw [h2] at h
              exact h
            dsimp only
            refine issue_left (by rw [hs2.2, hs1.2]) (fun i hi => ?_) hinv
            rw [hs2.1, hs1.1] at hi
            exact hgi ▸ hi
        · cases h2 : send_signal_to_job pid env.contOk with
          | mk k m2 =>
            dsimp only
            split
            · cases h3 : take_terminal_control s1 env.reclaimOk with
              | mk s2 tm =>
                obtain ⟨t, m3⟩ := tm
                have hs2 : s2.jobs = s1.jobs ∧ s2.next_jid = s1.next_jid := by
                  have h := take_terminal_control_state s1 env.reclaimOk
                  rw [h3] at h
                  exact h
                dsimp only
                refine issue_left (by rw [hs2.2, hs1.2]) (fun i hi => ?_) hinv
                rw [hs2.1, hs1.1] at hi
                exact hgi ▸ hi
            · cases h3 : wait_for_job pid env.waitRes with
              | mk wr rest =>
                obtain ⟨stOpt, m3⟩ := rest
                dsimp only
                split
                · cases h4 : take_terminal_control
                      { s1 with
                        fg_pid := pid,
                        foreground_job_id := jobId,
                        jobs := (update_job_pid s1.jobs pid ProcState.RUNNING).getD s1.jobs }
                      env.reclaimOk with
                  | mk s3 tm =>
                    obtain ⟨t, m4⟩ := tm
                    have hs3 : s3.jobs =
                        (update_job_pid s1.jobs pid ProcState.RUNNING).getD s1.jobs ∧
                        s3.next_jid = s1.next_jid := by
                      have h := take_terminal_control_state
                        { s1 with
                          fg_pid := pid,
                          foreground_job_id := jobId,
                          jobs := (update_job_pid s1.jobs pid ProcState.RUNNING).getD s1.jobs }
                        env.reclaimOk
                      rw [h4] at h
                      exact h
                    dsimp only
                    refine issue_left (by rw [hs3.2, hs1.2]) (fun i hi => ?_) hinv
                    rw [hs3.1] at hi
                    have hi1 : i ∈ jids s1.jobs := mem_jids_update hi
                    rw [hs1.1] at hi1
                    exact hgi ▸ hi1
                · cases h4 : fgClassify
                      { s1 with
                        fg_pid := pid,
                        foreground_job_id := jobId,
                        jobs := (update_job_pid s1.jobs pid ProcState.RUNNING).getD s1.jobs }
                      jobId pid stOpt with
                  | mk s3 m4 =>
                    have hs3 : s3.next_jid = s1.next_jid ∧
                        ∀ i ∈ jids s3.jobs,
                          i ∈ jids ((update_job_pid s1.jobs pid ProcState.RUNNING).getD
                            s1.jobs) := by
                      have h := fgClassify_state
                        { s1 with
                          fg_pid := pid,
                          foreground_job_id := jobId,
                          jobs := (update_job_pid s1.jobs pid ProcState.RUNNING).getD s1.jobs }
                        jobId pid stOpt
                      rw [h4] at h
                      exact h
                    cases h5 : take_terminal_control
                        { s3 with fg_pid := -1, foreground_job_id := -1 }
                        env.reclaimOk with
                    | mk s5 tm =>
                      obtain ⟨t, m5⟩ := tm
                      have hs5 : s5.jobs = s3.jobs ∧ s5.next_jid = s3.next_jid := by
                        have h := take_terminal_control_state
                          { s3 with fg_pid := -1, foreground_job_id := -1 } env.reclaimOk
                        rw [h5] at h
                        exact h
                      dsimp only
                      refine issue_left (by rw [hs5.2, hs3.1, hs1.2]) (fun i hi => ?_) hinv
                      rw [hs5.1] at hi
                      have hi1 := hs3.2 i hi
                      have hi2 : i ∈ jids s1.jobs := mem_jids_update hi1
                      rw [hs1.1] at hi2
                      exact hgi ▸ hi2

lemma bgBuiltin_issue (s : ShellState) (jobId : Int) (env : FgEnv) (hinv : JidInv s) :
    JidInv (bgBuiltin s jobId env).st ∧ IssueOk s (bgBuiltin s jobId env).st := by
  unfold bgBuiltin
  cases hg : get_job_info s.jobs jobId with
  | mk res l0 =>
    have hgi : jids l0 = jids s.jobs := by
      have := jids_get_job_info s.jobs jobId
      rw [hg] at this
      exact this
    cases res with
    | none =>
      dsimp only
      exact issue_left rfl (fun i hi => hgi ▸ hi) hinv
    | some pr =>
      obtain ⟨pid, st0⟩ := pr
      dsimp only
      unfold send_signal_to_job
      repeat' (first | split | dsimp only)
      all_goals
        first
          | exact issue_left rfl (fun i hi => hgi ▸ hi) hinv
          | exact issue_left rfl (fun i hi => hgi ▸ mem_jids_update hi) hinv

lemma shellStep_issue (s : ShellState) (op : ShellOp) (hinv : JidInv s) :
    JidInv (shellStep s op).1 ∧ IssueOk s (shellStep s op).1 := by
  cases op with
  | reap pid status => exact reapOne_issue s pid status hinv
  | fgLaunch pid cmd env => exact mainForeground_issue s pid cmd env hinv
  | bgLaunch pid cmd => exact mainBackground_issue s pid cmd hinv
  | fgCmd jobId env => exact fgBuiltin_issue s jobId env hinv
  | bgCmd jobId env => exact bgBuiltin_issue s jobId env hinv

lemma runTrace_consec (ops : List ShellOp) :
    ∀ s, JidInv s → ∃ k, (runTrace s ops).2 = consecFrom s.next_jid k := by
  induction ops with
  | nil => exact fun s _ => ⟨0, rfl⟩
  | cons op rest ih =>
    intro s hinv
    obtain ⟨hinv1, hio⟩ := shellStep_issue s op hinv
    obtain ⟨k, hk⟩ := ih (shellStep s op).1 hinv1
    cases hio with
    | inl h =>
      refine ⟨k, ?_⟩
      show newIds s.jobs (shellStep s op).1.jobs ++ (runTrace (shellStep s op).1 rest).2 =
        consecFrom s.next_jid k
      rw [h.1, hk, h.2]
      rfl
    | inr h =>
      refine ⟨k + 1, ?_⟩
      show newIds s.jobs (shellStep s op).1.jobs ++ (runTrace (shellStep s op).1 rest).2 =
        consecFrom s.next_jid (k + 1)
      rw [h.1, hk, h.2]
      rfl

/-- C8: job ids issued over a shell session start at 1 and are strictly
increasing; every admission consumes the current `next_jid` and increments
it, and an id is never reissued even after its job is removed.  Formally:
along any session trace from the startup state, the list of job ids that
appear in the table is `[1, 2, ..., k]` in order; in particular two
background launches with the first job exiting in between receive ids 1
and 2. -/
theorem job_ids_consecutive_never_reused :
    (∀ (cap : Nat) (pg : Int) (ops : List ShellOp),
      ∃ k, (runTrace (initShellState cap pg) ops).2 = consecFrom 1 k) ∧
    (runTrace (initShellState 1024 1) demoOps).2 = [1, 2] := by
  constructor
  · intro cap pg ops
    have hinv : JidInv (initShellState cap pg) := by
      intro j hj
      simp [initShellState] at hj
    exact runTrace_consec ops _ hinv
  · rfl

/-- C2 (evaluation at the failing input): when the blocking wait of
`fg %1` fails, `handle_builtin` returns `-1` without clearing `fg_pid`
and `foreground_job_id`: they are left holding the job's pid 5 and job
id 1 instead of being reset to `-1` as on every other return path
(sh.c lines 474-477 return before lines 492-493). -/
theorem fg_wait_failure_leaves_foreground_state :
    (fgBuiltin stoppedSample 1 ⟨true, true, none, true⟩).st.fg_pid = 5 ∧
    (fgBuiltin stoppedSample 1 ⟨true, true, none, true⟩).st.foreground_job_id = 1 ∧
    (fgBuiltin stoppedSample 1 ⟨true, true, none, true⟩).ret = -1 :=
  ⟨rfl, rfl, rfl⟩

/-- C4 (evaluation at the failing input): `bg %1` on a job whose table
state is RUNNING is not rejected: because `get_job_info` reports every
tracked job as STOPPED, the `state != STOPPED` check at sh.c line 497
never fires, so no `ERROR: Job is already running` is printed, `SIGCONT`
is sent to the group of pid 5, and the builtin returns success (without
any blocking wait). -/
theorem bg_running_job_not_rejected :
    (bgBuiltin runningSample 1 ⟨true, true, none, true⟩).msgs = [] ∧
    (bgBuiltin runningSample 1 ⟨true, true, none, true⟩).sigs = [5] ∧
    (bgBuiltin runningSample 1 ⟨true, true, none, true⟩).ret = 1 ∧
    (bgBuiltin runningSample 1 ⟨true, true, none, true⟩).waited = false :=
  ⟨rfl, rfl, rfl, rfl⟩

/-- C9 (evaluation at the failing input): `get_job_info` is not
behaviorally equivalent to direct state inspection: on a tracked RUNNING
job it reports STOPPED, and on a tracked STOPPED job it leaves the
stored state mutated to RUNNING (the restore at sh.c line 67 writes the
local `current_state`, which is always RUNNING). -/
theorem get_job_info_misreports_state :
    (get_job_info runningSample.jobs 1).1 = some (5, ProcState.STOPPED) ∧
    (get_job_info stoppedSample.jobs 1).2 = [⟨1, 5, ProcState.RUNNING, "x"⟩] :=
  ⟨rfl, rfl⟩

/-- C5 (counterexample): when the job brought to foreground by `fg %1`
(job id 1, pid 5) dies by signal 9, the shell prints the id-less form
`(5) terminated by signal 9` (sh.c line 485), not the tracked format
`[1] (5) terminated by signal 9` the claim requires for tracked jobs. -/
theorem fg_signaled_prints_idless_form :
    (fgBuiltin stoppedSample 1 ⟨true, true, some (WStatus.signaled 9), true⟩).msgs =
      [⟨Channel.out, "(5) terminated by signal 9\n"⟩] ∧
    ⟨Channel.out, "[1] (5) terminated by signal 9\n"⟩ ∉
      (fgBuiltin stoppedSample 1 ⟨true, true, some (WStatus.signaled 9), true⟩).msgs := by
  constructor
  · rfl
  · decide

/-- C3: `fg %N` for an absent job N prints exactly `ERROR: No such job`
on standard error, leaves the job table unchanged, makes no blocking
wait call, sends no signal, and returns `-1` (a nonzero status, on which
`main` skips the fork and continues the read-eval loop, sh.c lines
648-651). -/
theorem fg_absent_job_reports_error (s : ShellState) (n : Int) (env : FgEnv)
    (h : ∀ j ∈ s.jobs, j.jid ≠ n) :
    fgBuiltin s n env =
      { st := s, msgs := [⟨Channel.err, "ERROR: No such job\n"⟩],
        sigs := [], waited := false, ret := -1 } := by
  have hfind : s.jobs.find? (fun j => j.jid == n) = none :=
    List.find?_eq_none.mpr (fun j hj => by simpa using h j hj)
  have hgp : get_job_pid s.jobs n = -1 := by
    unfold get_job_pid
    rw [hfind]
  have hgi : get_job_info s.jobs n = (none, s.jobs) := by
    unfold get_job_info
    rw [hgp]
    rfl
  unfold fgBuiltin
  rw [hgi]

/-- Witness for C3 at a concrete input: `fg %2` against a table holding
only job 1. -/
theorem fg_absent_job_reports_error_witness :
    fgBuiltin runningSample 2 ⟨true, true, none, true⟩ =
      { st := runningSample, msgs := [⟨Channel.err, "ERROR: No such job\n"⟩],
        sigs := [], waited := false, ret := -1 } :=
  fg_absent_job_reports_error runningSample 2 ⟨true, true, none, true⟩ (by decide)

lemma any_pid_after_update {l l' : List Job} {pid : Int} {st : ProcState}
    (h : update_job_pid l pid st = some l')
    (htr : l.any (fun j => j.pid == pid) = true) :
    l'.any (fun j => j.pid == pid) = true := by
  unfold update_job_pid at h
  rw [if_pos htr] at h
  injection h with h
  obtain ⟨jb, hjb, hp⟩ := List.any_eq_true.mp htr
  refine List.any_eq_true.mpr ⟨if jb.pid == pid then { jb with state := st } else jb, ?_, ?_⟩
  · rw [← h]
    exact List.mem_map_of_mem _ hjb
  · rw [if_pos hp]
    exact hp

lemma get_job_info_eq {l : List Job} {jid pid : Int}
    (hpid : get_job_pid l jid = pid) (hne : ¬ pid = -1) :
    ∃ l', get_job_info l jid = (some (pid, ProcState.STOPPED), l') := by
  have htr := any_pid_of_get_job_pid hpid hne
  have h1 := update_job_pid_tracked ProcState.RUNNING htr
  have htr1 := any_pid_after_update h1 htr
  have h2 := update_job_pid_tracked ProcState.STOPPED htr1
  unfold get_job_info
  dsimp only
  rw [hpid, if_neg (by simpa using hne), h1]
  dsimp only
  rw [h2]
  exact ⟨_, rfl⟩

/-- C5 (amended): when the job brought to the foreground by `fg %N` dies
by a signal, the shell prints the id-less notice `(<pid>) terminated by
signal <signal>` and removes the job (by its job id) from the table; the
tracked format with the job id is not used on this path. -/
theorem fg_signaled_removes_job (s : ShellState) (jobId pid sig : Int) (env : FgEnv)
    (hpid : get_job_pid s.jobs jobId = pid) (hpos : 0 < pid)
    (hg : env.grantOk = true) (hc : env.contOk = true)
    (hw : env.waitRes = some (WStatus.signaled sig)) (hr : env.reclaimOk = true) :
    (fgBuiltin s jobId env).msgs =
      [⟨Channel.out, s!"({pid}) terminated by signal {sig}\n"⟩] ∧
    ∀ jb ∈ (fgBuiltin s jobId env).st.jobs, jb.jid ≠ jobId := by
  obtain ⟨l3, hgi⟩ := get_job_info_eq hpid (by omega)
  have hp : ¬ pid ≤ 0 := by omega
  have hmain : (fgBuiltin s jobId env).msgs =
      [⟨Channel.out, s!"({pid}) terminated by signal {sig}\n"⟩] ∧
      (fgBuiltin s jobId env).st.jobs =
        remove_job_jid ((update_job_pid l3 pid ProcState.RUNNING).getD l3) jobId := by
    unfold fgBuiltin
    rw [hgi]
    dsimp only
    unfold give_terminal_to send_signal_to_job wait_for_job take_terminal_control fgClassify
    rw [hg, hc, hr, hw]
    simp only [if_neg hp]
    norm_num
  refine ⟨hmain.1, fun jb hjb => ?_⟩
  rw [hmain.2] at hjb
  exact mem_remove_job_jid hjb

/-- Witness for C5's amended claim at a concrete input: `fg %1` on a
table holding job 1 with pid 5, with the resumed process killed by
signal 9. -/
theorem fg_signaled_removes_job_witness :
    (fgBuiltin stoppedSample 1 ⟨true, true, some (WStatus.signaled 9), true⟩).msgs =
      [⟨Channel.out, "(5) terminated by signal 9\n"⟩] ∧
    ∀ jb ∈ (fgBuiltin stoppedSample 1 ⟨true, true, some (WStatus.signaled 9), true⟩).st.jobs,
      jb.jid ≠ 1 := by
  have h := fg_signaled_removes_job stoppedSample 1 5 9
    ⟨true, true, some (WStatus.signaled 9), true⟩ rfl (by decide) rfl rfl rfl rfl
  exact h

/-- C6: for an event consumed by the reaper's drain, a tracked pid whose
process exited or died by signal has its job removed from the table and
a status line printed in exactly the required format, while an event for
an untracked pid that is not the current foreground pid is dropped with
no output and no table change. -/
theorem reap_exit_signal_policy (s : ShellState) (pid j code sig : Int) :
    (get_job_jid s.jobs pid = j → 0 < j →
      reapOne s pid (WStatus.exited code) =
        ({ s with jobs := remove_job_pid s.jobs pid },
         [⟨Channel.out, s!"[{j}] ({pid}) terminated with exit status {code}\n"⟩]) ∧
      reapOne s pid (WStatus.signaled sig) =
        ({ s with jobs := remove_job_pid s.jobs pid },
         [⟨Channel.out, s!"[{j}] ({pid}) terminated by signal {sig}\n"⟩])) ∧
    (∀ status, get_job_jid s.jobs pid = -1 → pid ≠ s.fg_pid →
      reapOne s pid status = (s, [])) := by
  constructor
  · intro hj hpos
    have h1 : (j == -1) = false := by
      simp only [beq_eq_false_iff_ne, ne_eq]
      omega
    constructor <;>
      (unfold reapOne
       dsimp only
       rw [hj, h1]
       simp only [Bool.false_and, Bool.false_eq_true, if_false]
       rw [if_pos hpos])
  · intro status hj hfg
    have h2 : (pid != s.fg_pid) = true := by
      simpa using hfg
    unfold reapOne
    dsimp only
    rw [hj, h2]
    simp

/-- Witness for C6 at concrete inputs: the tracked job 1 (pid 5) exits
with status 0, and an untracked pid 99 event is dropped. -/
theorem reap_exit_signal_policy_witness :
    reapOne runningSample 5 (WStatus.exited 0) =
      ({ runningSample with jobs := [] },
       [⟨Channel.out, "[1] (5) terminated with exit status 0\n"⟩]) ∧
    reapOne runningSample 99 (WStatus.signaled 9) = (runningSample, []) := by
  refine ⟨?_, ?_⟩
  · exact ((reap_exit_signal_policy runningSample 5 1 0 9).1 rfl (by decide)).1
  · exact (reap_exit_signal_policy runningSample 99 1 0 9).2 (WStatus.signaled 9) rfl (by decide)

/-- C7: for a stop or continue event consumed by the reaper's drain: a
stopped process not in the table (necessarily the foreground pid, since
other untracked events are dropped) is admitted as a new STOPPED job
under the next job id and announced as suspended; a stopped tracked
process is re-marked STOPPED; a continued tracked process is marked
RUNNING and announced as resumed; continued events for untracked pids
produce no output and no table change. -/
theorem reap_stop_continue_policy (s : ShellState) (pid j sig : Int) :
    (get_job_jid s.jobs pid = -1 → pid = s.fg_pid →
      ∀ l, add_job s.jobs s.cap s.next_jid pid ProcState.STOPPED "fg_command" = some l →
        reapOne s pid (WStatus.stopped sig) =
          ({ s with jobs := l, next_jid := s.next_jid + 1 },
           [⟨Channel.out, s!"[{s.next_jid}] ({pid}) suspended by signal {sig}\n"⟩]) ∧
        l = s.jobs ++ [⟨s.next_jid, pid, ProcState.STOPPED, "fg_command"⟩]) ∧
    (get_job_jid s.jobs pid = j → 0 < j →
      reapOne s pid (WStatus.stopped sig) =
        ({ s with jobs := (update_job_pid s.jobs pid ProcState.STOPPED).getD s.jobs },
         [⟨Channel.out, s!"[{j}] ({pid}) suspended by signal {sig}\n"⟩]) ∧
      ∀ jb ∈ (reapOne s pid (WStatus.stopped sig)).1.jobs, jb.pid = pid →
        jb.state = ProcState.STOPPED) ∧
    (get_job_jid s.jobs pid = j → 0 < j →
      reapOne s pid WStatus.continued =
        ({ s with jobs := (update_job_pid s.jobs pid ProcState.RUNNING).getD s.jobs },
         [⟨Channel.out, s!"[{j}] ({pid}) resumed\n"⟩]) ∧
      ∀ jb ∈ (reapOne s pid WStatus.continued).1.jobs, jb.pid = pid →
        jb.state = ProcState.RUNNING) ∧
    (get_job_jid s.jobs pid = -1 → reapOne s pid WStatus.continued = (s, [])) := by
  refine ⟨?_, ?_, ?_, ?_⟩
  · intro hj hfg l hadd
    have hfg' : (s.fg_pid == pid) = true := by
      simp [hfg]
    have heq : reapOne s pid (WStatus.stopped sig) =
        ({ s with jobs := l, next_jid := s.next_jid + 1 },
         [⟨Channel.out, s!"[{s.next_jid}] ({pid}) suspended by signal {sig}\n"⟩]) := by
      unfold reapOne
      dsimp only
      rw [hj, hfg']
      simp only [if_pos rfl, if_true, ite_true, beq_self_eq_true, Bool.true_and]
      rw [hadd, if_neg (show ¬((pid != s.fg_pid) = true) by simp [hfg])]
    refine ⟨heq, ?_⟩
    unfold add_job at hadd
    split at hadd
    · exact Option.noConfusion hadd
    · injection hadd with hadd
      exact hadd.symm
  · intro hj hpos
    have h1 : (j == -1) = false := by
      simp only [beq_eq_false_iff_ne, ne_eq]
      omega
    have heq : reapOne s pid (WStatus.stopped sig) =
        ({ s with jobs := (update_job_pid s.jobs pid ProcState.STOPPED).getD s.jobs },
         [⟨Channel.out, s!"[{j}] ({pid}) suspended by signal {sig}\n"⟩]) := by
      unfold reapOne
      dsimp only
      rw [hj, h1]
      simp only [Bool.false_and, Bool.false_eq_true, if_false]
    refine ⟨heq, fun jb hjb hpid => ?_⟩
    rw [heq] at hjb
    exact state_after_update hjb hpid
  · intro hj hpos
    have h1 : (j == -1) = false := by
      simp only [beq_eq_false_iff_ne, ne_eq]
      omega
    have heq : reapOne s pid WStatus.continued =
        ({ s with jobs := (update_job_pid s.jobs pid ProcState.RUNNING).getD s.jobs },
         [⟨Channel.out, s!"[{j}] ({pid}) resumed\n"⟩]) := by
      unfold reapOne
      dsimp only
      rw [hj, h1]
      simp only [Bool.false_and, Bool.false_eq_true, if_false]
      rw [if_pos hpos]
    refine ⟨heq, fun jb hjb hpid => ?_⟩
    rw [heq] at hjb
    exact state_after_update hjb hpid
  · intro hj
    by_cases hfg : pid = s.fg_pid
    · unfold reapOne
      dsimp only
      rw [hj]
      simp [hfg]
    · unfold reapOne
      dsimp only
      rw [hj]
      simp [hfg]

/-- Witness for C7 at concrete inputs: the untracked foreground pid 7
stops and is admitted as job 1; an untracked pid 99 continue event is
dropped. -/
theorem reap_stop_continue_policy_witness :
    reapOne fgStopSample 7 (WStatus.stopped 20) =
      ({ fgStopSample with jobs := [⟨1, 7, ProcState.STOPPED, "fg_command"⟩], next_jid := 2 },
       [⟨Channel.out, "[1] (7) suspended by signal 20\n"⟩]) ∧
    reapOne runningSample 99 WStatus.continued = (runningSample, []) := by
  constructor
  · exact ((reap_stop_continue_policy fgStopSample 7 1 20).1 rfl rfl
      [⟨1, 7, ProcState.STOPPED, "fg_command"⟩] rfl).1
  · exact (reap_stop_continue_policy runningSample 99 1 20).2.2.2 rfl

/-- C10: at each of the three job-admission sites (the reaper's
stop-admission, the parent-side foreground stop, and the background
launch) the `next_jid` counter is incremented exactly when `add_job`
succeeds; when the add fails, `Error: Failed to add job to job list` is
printed on standard error and the counter and the table are left
unchanged (the process stays untracked); none of these sites leaves the
read-eval loop. -/
theorem admission_increments_counter_iff (s : ShellState) (pid sig : Int) (cmd : String) :
    (get_job_jid s.jobs pid = -1 → pid = s.fg_pid →
      (∀ l, add_job s.jobs s.cap s.next_jid pid ProcState.STOPPED "fg_command" = some l →
        reapOne s pid (WStatus.stopped sig) =
          ({ s with jobs := l, next_jid := s.next_jid + 1 },
           [⟨Channel.out, s!"[{s.next_jid}] ({pid}) suspended by signal {sig}\n"⟩])) ∧
      (add_job s.jobs s.cap s.next_jid pid ProcState.STOPPED "fg_command" = none →
        reapOne s pid (WStatus.stopped sig) =
          (s, [⟨Channel.err, "Error: Failed to add job to job list\n"⟩]))) ∧
    (∀ env : MainFgEnv, env.grantOk = true → env.reclaimOk = true →
      env.waitRes = some (WStatus.stopped sig) →
      (∀ l, add_job s.jobs s.cap s.next_jid pid ProcState.STOPPED cmd = some l →
        mainForeground s pid cmd env =
          ({ s with
             jobs := l,
             next_jid := s.next_jid + 1,
             fg_pid := -1,
             termOwner := s.shellPgid },
           [⟨Channel.out, s!"[{s.next_jid}] ({pid}) suspended by signal {sig}\n"⟩])) ∧
      (add_job s.jobs s.cap s.next_jid pid ProcState.STOPPED cmd = none →
        mainForeground s pid cmd env =
          ({ s with fg_pid := -1, termOwner := s.shellPgid },
           [⟨Channel.err, "Error: Failed to add job to job list\n"⟩]))) ∧
    ((∀ l, add_job s.jobs s.cap s.next_jid pid ProcState.RUNNING cmd = some l →
        mainBackground s pid cmd =
          ({ s with jobs := l, next_jid := s.next_jid + 1 },
           [⟨Channel.out, s!"[{s.next_jid}] ({pid})\n"⟩])) ∧
      (add_job s.jobs s.cap s.next_jid pid ProcState.RUNNING cmd = none →
        mainBackground s pid cmd =
          (s, [⟨Channel.err, "Error: Failed to add job to job list\n"⟩]))) := by
  refine ⟨?_, ?_, ?_⟩
  · intro hj hfg
    have hfg' : (s.fg_pid == pid) = true := by
      simp [hfg]
    have hdrop : ¬((pid != s.fg_pid) = true) := by
      simp [hfg]
    constructor
    · intro l hadd
      unfold reapOne
      dsimp only
      rw [hj, hfg']
      simp only [if_pos rfl, if_true, ite_true, beq_self_eq_true, Bool.true_and]
      rw [hadd, if_neg hdrop]
    · intro hadd
      unfold reapOne
      dsimp only
      rw [hj, hfg']
      simp only [if_pos rfl, if_true, ite_true, beq_self_eq_true, Bool.true_and]
      rw [hadd, if_neg hdrop]
  · intro env hge hre hwe
    constructor
    · intro l hadd
      unfold mainForeground
      rw [hge, hre, hwe]
      dsimp only
      simp only [reduceIte]
      rw [hadd]
      norm_num
    · intro hadd
      unfold mainForeground
      rw [hge, hre, hwe]
      dsimp only
      simp only [reduceIte]
      rw [hadd]
      norm_num
  · constructor
    · intro l hadd
      unfold mainBackground
      rw [hadd]
    · intro hadd
      unfold mainBackground
      rw [hadd]

/-- Witness for C10 at concrete inputs: a stop of the foreground pid 7
against a capacity-0 table fails to be admitted (error printed, state
unchanged), while a background launch of pid 30 against a one-job table
is admitted as job 2 with the counter moving to 3. -/
theorem admission_increments_counter_iff_witness :
    reapOne capZeroSample 7 (WStatus.stopped 19) =
      (capZeroSample, [⟨Channel.err, "Error: Failed to add job to job list\n"⟩]) ∧
    mainBackground runningSample 30 "c" =
      ({ runningSample with
         jobs := [⟨1, 5, ProcState.RUNNING, "x"⟩, ⟨2, 30, ProcState.RUNNING, "c"⟩],
         next_jid := 3 },
       [⟨Channel.out, "[2] (30)\n"⟩]) := by
  constructor
  · exact ((admission_increments_counter_iff capZeroSample 7 19 "c").1 rfl rfl).2 rfl
  · exact ((admission_increments_counter_iff runningSample 30 19 "c").2.2).1
      [⟨1, 5, ProcState.RUNNING, "x"⟩, ⟨2, 30, ProcState.RUNNING, "c"⟩] rfl

lemma take_terminal_control_pg (s : ShellState) (ok : Bool) (hok : ok = true) :
    (take_terminal_control s ok).1.shellPgid = s.shellPgid ∧
    (take_terminal_control s ok).1.termOwner = s.shellPgid := by
  subst hok
  unfold take_terminal_control
  exact ⟨rfl, rfl⟩

lemma give_terminal_to_pg (s : ShellState) (pgid : Int) (ok : Bool) :
    (give_terminal_to s pgid ok).1.shellPgid = s.shellPgid := by
  unfold give_terminal_to
  by_cases hp : pgid ≤ 0
  · rw [if_pos hp]
  · rw [if_neg hp]
    cases ok <;> rfl

lemma fgClassify_pg (s2 : ShellState) (jobId pid : Int) (stOpt : Option WStatus) :
    (fgClassify s2 jobId pid stOpt).1.shellPgid = s2.shellPgid := by
  unfold fgClassify
  rcases stOpt with _ | st
  · rfl
  · cases st <;> rfl

lemma fgBuiltin_restores_terminal (s : ShellState) (jobId : Int) (env : FgEnv)
    (hr : env.reclaimOk = true) (h0 : s.termOwner = s.shellPgid) :
    (fgBuiltin s jobId env).st.termOwner = s.shellPgid := by
  unfold fgBuiltin
  cases hg : get_job_info s.jobs jobId with
  | mk res l0 =>
    cases res with
    | none =>
      dsimp only
      exact h0
    | some pr =>
      obtain ⟨pid, st0⟩ := pr
      dsimp only
      cases h1 : give_terminal_to { s with jobs := l0 } pid env.grantOk with
      | mk s1 gm =>
        obtain ⟨g, m1⟩ := gm
        have hs1 : s1.shellPgid = s.shellPgid := by
          have h := give_terminal_to_pg { s with jobs := l0 } pid env.grantOk
          rw [h1] at h
          exact h
        dsimp only
        split
        · cases h2 : take_terminal_control s1 env.reclaimOk with
          | mk s2 tm =>
            obtain ⟨t, m2⟩ := tm
            have h := take_terminal_control_pg s1 env.reclaimOk hr
            rw [h2] at h
            dsimp only
            rw [h.2, hs1]
        · cases h2 : send_signal_to_job pid env.contOk with
          | mk k m2 =>
            dsimp only
            split
            · cases h3 : take_terminal_control s1 env.reclaimOk with
              | mk s2 tm =>
                obtain ⟨t, m3⟩ := tm
                have h := take_terminal_control_pg s1 env.reclaimOk hr
                rw [h3] at h
                dsimp only
                rw [h.2, hs1]
            · cases h3 : wait_for_job pid env.waitRes with
              | mk wr rest =>
                obtain ⟨stOpt, m3⟩ := rest
                dsimp only
                split
                · cases h4 : take_terminal_control
                      { s1 with
                        fg_pid := pid,
                        foreground_job_id := jobId,
                        jobs := (update_job_pid s1.jobs pid ProcState.RUNNING).getD s1.jobs }
                      env.reclaimOk with
                  | mk s3 tm =>
                    obtain ⟨t, m4⟩ := tm
                    have h := take_terminal_control_pg
                      { s1 with
                        fg_pid := pid,
                        foreground_job_id := jobId,
                        jobs := (update_job_pid s1.jobs pid ProcState.RUNNING).getD s1.jobs }
                      env.reclaimOk hr
                    rw [h4] at h
                    dsimp only
                    rw [h.2]
                    exact hs1
                · cases h4 : fgClassify
                      { s1 with
                        fg_pid := pid,
                        foreground_job_id := jobId,
                        jobs := (update_job_pid s1.jobs pid ProcState.RUNNING).getD s1.jobs }
                      jobId pid stOpt with
                  | mk s3 m4 =>
                    have hs3 : s3.shellPgid = s.shellPgid := by
                      have h := fgClassify_pg
                        { s1 with
                          fg_pid := pid,
                          foreground_job_id := jobId,
                          jobs := (update_job_pid s1.jobs pid ProcState.RUNNING).getD s1.jobs }
                        jobId pid stOpt
                      rw [h4] at h
                      exact h.trans hs1
                    cases h5 : take_terminal_control
                        { s3 with fg_pid := -1, foreground_job_id := -1 }
                        env.reclaimOk with
                    | mk s5 tm =>
                      obtain ⟨t, m5⟩ := tm
                      have h := take_terminal_control_pg
                        { s3 with fg_pid := -1, foreground_job_id := -1 } env.reclaimOk hr
                      rw [h5] at h
                      dsimp only
                      rw [h.2]
                      exact hs3

lemma mainForeground_restores_terminal (s : ShellState) (pid : Int) (cmd : String)
    (env : MainFgEnv) (hr : env.reclaimOk = true) :
    (mainForeground s pid cmd env).1.termOwner = s.shellPgid := by
  obtain ⟨g, w, r⟩ := env
  have hr' : r = true := hr
  subst hr'
  unfold mainForeground
  cases g <;> simp only [reduceIte] <;>
    (rcases w with _ | st
     · rfl
     · rcases st with code | sig | sig | _
       · rfl
       · rfl
       · simp only [reduceIte]
         split <;> rfl
       · rfl)

/-- C1: terminal ownership is returned to the shell's own process group
on every exit path of both foreground-owning operations — the `fg`
builtin and the parent-side foreground wait — whether the operation
succeeds, the terminal grant fails, the SIGCONT send fails, or the
blocking wait fails (assuming the final `tcsetpgrp` back to the shell
succeeds, and that the shell owned the terminal at the prompt). -/
theorem foreground_operations_restore_terminal (s : ShellState) (jobId pid : Int)
    (cmd : String) (fenv : FgEnv) (menv : MainFgEnv)
    (hf : fenv.reclaimOk = true) (hm : menv.reclaimOk = true)
    (h0 : s.termOwner = s.shellPgid) :
    (fgBuiltin s jobId fenv).st.termOwner = s.shellPgid ∧
    (mainForeground s pid cmd menv).1.termOwner = s.shellPgid :=
  ⟨fgBuiltin_restores_terminal s jobId fenv hf h0,
   mainForeground_restores_terminal s pid cmd menv hm⟩

/-- Witness for C1 at concrete inputs: `fg %1` on a one-job table with a
failing blocking wait, and a foreground launch of pid 8 that is killed by
a signal; in both runs the terminal owner afterwards is the shell's
process group 10. -/
theorem foreground_operations_restore_terminal_witness :
    (fgBuiltin stoppedSample 1 ⟨true, true, none, true⟩).st.termOwner = 10 ∧
    (mainForeground stoppedSample 8 "c"
      ⟨true, some (WStatus.signaled 9), true⟩).1.termOwner = 10 :=
  foreground_operations_restore_terminal stoppedSample 1 8 "c"
    ⟨true, true, none, true⟩ ⟨true, some (WStatus.signaled 9), true⟩ rfl rfl rfl

end Shell
